import Mathlib

/-!
# Verification of `hikyuu/house.py` (strategy-repository manager)

Shallow embedding of the house/part repository manager: the metadata
store (House and Part records), the part scanner (`import_part_to_db`),
the registry operations (`add_remote_house`, `update_house`,
`remove_house`), the resolver (`get_part`, `get_part_info`) and the
`dbsession` decorator that manages the SQLAlchemy session.

Filesystem contents, module loading (`importlib.import_module`) and the
git fetch are external effects; they are passed in as explicit data
(`HouseFS`, `LoadResult`, a `fetchOk` flag), mirroring exactly the
decisions the Python code makes on their results.
-/

namespace House

/-- A row of the `house_repo` table (`HouseModel` in the source; the
`id` surrogate key is omitted; the `local` column is named
`local_path` here because `local` is a Lean keyword). -/
structure HouseModel where
  name : String
  house_type : String
  local_path : String
  url : String
  branch : String
deriving Repr, DecidableEq

/-- A row of the `house_part` table (`PartModel` in the source; the
`id` surrogate key is omitted). -/
structure PartModel where
  house_name : String
  part : String
  name : String
  author : String
  version : String
  doc : String
  module_name : String
deriving Repr, DecidableEq

/-- The typed errors raised by the source: the dedicated exception
classes, plus `fetchFailed` for the `RuntimeError` raised by
`download_remote_house`, `checkFailed` for `checkif` called with only a
message string, and `uncaughtImportError` for exceptions that no
`except` clause of the function under study catches and that therefore
propagate raw to the caller. -/
inductive HError where
  | houseNameRepeat (name : String)
  | checkFailed (msg : String)
  | fetchFailed (url : String)
  | partNameError (name : String)
  | partNotFound (name cause : String)
  | uncaughtImportError (module_name : String)
deriving Repr, DecidableEq

/-- The observable surface of a loaded part module: the optional
`author` and `version` string attributes, whether a `part` name is
bound in the module, `part.__doc__` (absent = Python `None`), and
whether evaluating the `PartModel(...)` constructor arguments raises
(e.g. `author` bound to a non-string, so `.strip()` raises). -/
structure PartModule where
  author : Option String
  version : Option String
  hasPart : Bool
  doc : Option String
  buildRaises : Bool
deriving Repr, DecidableEq

/-- Result of `importlib.import_module` on one candidate part module:
the loaded module, or `ModuleNotFoundError`, or any other exception
raised while importing (syntax error, runtime error during load). -/
inductive LoadResult where
  | ok (m : PartModule)
  | moduleNotFound
  | loadError
deriving Repr, DecidableEq

/-- One entry yielded by `os.scandir` on a category directory. `load`
is what `importlib.import_module` would give for this candidate's
computed module locator. -/
structure DirEntry where
  name : String
  isDir : Bool
  load : LoadResult
deriving Repr, DecidableEq

/-- The filesystem tree of one house, as the scanner observes it:
whether `local_dir` exists (`os.path.lexists`), and for each category
subpath (the `part_dict` values, e.g. `"part/sg"`, `"sys"`) the entries
of that directory, `none` meaning `os.scandir` raises
`FileNotFoundError`. -/
structure HouseFS where
  localExists : Bool
  dirs : String → Option (List DirEntry)

/-- The fixed category taxonomy of `import_part_to_db`: category key to
subdirectory path. -/
def part_dict : List (String × String) :=
  [("af", "part/af"), ("cn", "part/cn"), ("ev", "part/ev"),
   ("mm", "part/mm"), ("pg", "part/pg"), ("se", "part/se"),
   ("sg", "part/sg"), ("sp", "part/sp"), ("st", "part/st"),
   ("prtflo", "prtflo"), ("sys", "sys")]

/-- Character-list splitter behind `py_split`: Python's
`str.split(sep)` for a one-character separator (an empty input gives
one empty field; a separator at either end gives an empty field
there). Structural recursion so that concrete runs reduce in the
kernel. -/
def splitChar (sep : Char) : List Char → List (List Char)
  | [] => [[]]
  | c :: cs =>
    match splitChar sep cs with
    | [] => [[]]
    | h :: t => if c = sep then [] :: h :: t else (c :: h) :: t

/-- Python `name.split(sep)` with a one-character separator. -/
def py_split (s : String) (sep : Char) : List String :=
  (splitChar sep s.data).map String.mk

/-- Python `name.startswith(c)` with a one-character literal. -/
def py_startswith (s : String) (c : Char) : Bool :=
  match s.data with
  | [] => false
  | a :: _ => a = c

/-- Python `s.strip()`: drop whitespace from both ends. -/
def py_strip (s : String) : String :=
  String.mk
    (((s.data.dropWhile Char.isWhitespace).reverse.dropWhile
      Char.isWhitespace).reverse)

/-- `os.path.basename` for POSIX paths: the component after the final
slash. -/
def basename (p : String) : String :=
  (py_split p '/').getLastD ""

/-- The module locator computed at lines 341-345 of the source:
`"{base}.part.{part}.{entry}.part"` for the nine `part/`-prefixed
categories, `"{base}.{part}.{entry}.part"` for `prtflo` and `sys`. -/
def module_name_of (base_local part entry : String) : String :=
  if part ∉ (["prtflo", "sys"] : List String) then
    base_local ++ ".part." ++ part ++ "." ++ entry ++ ".part"
  else
    base_local ++ "." ++ part ++ "." ++ entry ++ ".part"

/-- The fully-qualified part name computed at lines 362-366 of the
source. The source writes this as a conditional whose two branches are
the identical format string; both are transcribed. -/
def part_name_of (house_name part entry : String) : String :=
  if part ∉ (["prtflo", "sys"] : List String) then
    house_name ++ "." ++ part ++ "." ++ entry
  else
    house_name ++ "." ++ part ++ "." ++ entry

/-- The body of the scanner's per-entry loop (lines 338-384): filter
out dot-files, non-directories and `__pycache__`; import the module
(skip on any import failure); require a `part` binding (skip if
absent); build the `PartModel` row (skip if construction raises). -/
def process_entry (house_name base_local part : String) (e : DirEntry) :
    Option PartModel :=
  if py_startswith e.name '.' = false ∧ e.isDir = true ∧ e.name ≠ "__pycache__" then
    match e.load with
    | .moduleNotFound => none
    | .loadError => none
    | .ok m =>
      if m.hasPart = false then none
      else if m.buildRaises = true then none
      else some
        { house_name := house_name
          part := part
          name := part_name_of house_name part e.name
          author := match m.author with
            | some a => py_strip a
            | none => "None"
          version := match m.version with
            | some v => py_strip v
            | none => "None"
          doc := match m.doc with
            | some d => if d ≠ "" then py_strip d else "None"
            | none => "None"
          module_name := module_name_of base_local part e.name }
  else none

/-- One category of the scanner's outer loop: scan the category
directory, yielding the rows added for it; a `FileNotFoundError` from
`os.scandir` (missing directory) contributes nothing (`continue`). -/
def scan_category (house_name base_local : String) (fs : HouseFS)
    (part part_dir : String) : List PartModel :=
  match fs.dirs part_dir with
  | none => []
  | some entries => entries.filterMap (process_entry house_name base_local part)

/-- The rows that `import_part_to_db` adds to the session for one
house (lines 320-387): empty with only a warning when the house's local
directory does not exist, otherwise the per-category scans over the
fixed taxonomy. -/
def scan_parts (house : HouseModel) (fs : HouseFS) : List PartModel :=
  if fs.localExists = false then []
  else part_dict.flatMap
    (fun c => scan_category house.name (basename house.local_path) fs c.1 c.2)

/-- The manager's session-visible state. `dbHouses`/`dbParts` is the
state of the database as the current transaction sees it (bulk
`query(...).delete()` statements act here directly); `pendingHouses`/
`pendingParts` are objects staged with `session.add` but not yet
flushed (the sessionmaker uses `autoflush=False`, so queries do not see
them); `sessionOpen` models `self._session is not None`; `commitCount`
counts the `session.commit()` calls performed so far. -/
structure SessCtx where
  dbHouses : List HouseModel
  dbParts : List PartModel
  pendingHouses : List HouseModel
  pendingParts : List PartModel
  sessionOpen : Bool
  commitCount : Nat
deriving Repr, DecidableEq

/-- `session.commit()`: flush the staged objects into the database and
commit the transaction. -/
def commitS (s : SessCtx) : SessCtx :=
  { dbHouses := s.dbHouses ++ s.pendingHouses
    dbParts := s.dbParts ++ s.pendingParts
    pendingHouses := []
    pendingParts := []
    sessionOpen := s.sessionOpen
    commitCount := s.commitCount + 1 }

/-- The `dbsession` decorator (lines 141-154 of the source): remember
the current session; open one if none is active; run the body; call
`session.commit()` unconditionally on the shared session; close the
session again only if this call opened it. An exception from the body
propagates before the commit (and, as in the source, without any
rollback or restore — the error result carries no state). -/
def dbsession_wrap {α : Type} (body : SessCtx → Except HError (α × SessCtx))
    (s : SessCtx) : Except HError (α × SessCtx) :=
  let opened := s.sessionOpen = false
  let s1 := if s.sessionOpen then s else { s with sessionOpen := true }
  match body s1 with
  | .error e => .error e
  | .ok (a, s2) =>
    let s3 := commitS s2
    .ok (a, if opened then { s3 with sessionOpen := false } else s3)

/-- `checkif(expression, ..., ExceptionClass)` — Modelled from the
spec: the helper `checkif` comes from `hikyuu.util.check`, which is not
part of this source tree; per the spec's error-handling design it
raises the given typed error exactly when the condition holds
("Fails with `HouseNameRepeatError` if `name` already registered",
etc.). -/
def checkif (cond : Bool) (e : HError) : Except HError Unit :=
  if cond then .error e else .ok ()

/-- `import_part_to_db` (lines 304-387): itself decorated with
`@dbsession`; stages one `session.add(part_model)` per successfully
scanned candidate. -/
def import_part_to_db (house : HouseModel) (fs : HouseFS) :
    SessCtx → Except HError (Unit × SessCtx) :=
  dbsession_wrap (fun s =>
    .ok ((), { s with pendingParts := s.pendingParts ++ scan_parts house fs }))

/-- `add_remote_house(name, url, branch)` (lines 219-243): duplicate-
name check against the database, fetch (`download_remote_house`, whose
outcome is the `fetchOk` argument; on failure it raises `RuntimeError`
naming the url), scan via the nested decorated `import_part_to_db`,
then stage the House row. The query on `(url, branch)` at lines
230-232 binds a variable that is immediately overwritten, so it is not
transcribed. `remote_cache_dir` is the configured cache directory. -/
def add_remote_house (remote_cache_dir name url branch : String)
    (fetchOk : Bool) (fs : HouseFS) :
    SessCtx → Except HError (Unit × SessCtx) :=
  dbsession_wrap (fun s => do
    let record := s.dbHouses.find? (fun h => h.name = name)
    checkif record.isSome (.houseNameRepeat name)
    if fetchOk = false then
      .error (.fetchFailed url)
    else
      let local_dir := remote_cache_dir ++ "/" ++ name
      let record : HouseModel :=
        { name := name, house_type := "remote", url := url,
          branch := branch, local_path := local_dir }
      match import_part_to_db record fs s with
      | .error e => .error e
      | .ok (_, s2) =>
        .ok ((), { s2 with pendingHouses := s2.pendingHouses ++ [record] }))

/-- `update_house(name)` (lines 281-293): look up the house (fails via
`checkif` with a message-only "does not exist" error), bulk-delete its
Part rows, re-fetch when remote (failure raises as in
`download_remote_house`), then re-scan via the nested decorated
`import_part_to_db`. -/
def update_house (name : String) (fetchOk : Bool) (fs : HouseFS) :
    SessCtx → Except HError (Unit × SessCtx) :=
  dbsession_wrap (fun s =>
    match s.dbHouses.find? (fun h => h.name = name) with
    | none => .error (.checkFailed name)
    | some house_model =>
      let s1 := { s with
        dbParts := s.dbParts.filter (fun p => ¬ p.house_name = name) }
      if house_model.house_type = "remote" ∧ fetchOk = false then
        .error (.fetchFailed house_model.url)
      else
        import_part_to_db house_model fs s1)

/-- `remove_house(name)` (lines 295-302): bulk-delete the house's Part
rows, then the House row; no existence check. -/
def remove_house (name : String) : SessCtx → Except HError (Unit × SessCtx) :=
  dbsession_wrap (fun s =>
    .ok ((), { s with
      dbParts := s.dbParts.filter (fun p => ¬ p.house_name = name),
      dbHouses := s.dbHouses.filter (fun h => ¬ h.name = name) }))

/-- The recognized categories checked by `get_part` (line 400). -/
def categories : List String :=
  ["af", "cn", "ev", "mm", "pg", "se", "sg", "sp", "st", "prtflo", "sys"]

/-- The house-inference block of `get_part` (lines 404-416): with
exactly two name segments, derive the house name from the location of
the current file (`path_parts` is
`pathlib.Path(os.path.abspath(__file__)).parts`) and reassemble the
part name; otherwise the name is used as given. -/
def infer_part_name (name : String) (name_parts path_parts : List String) :
    Except HError String :=
  if name_parts.length = 2 then
    if name_parts.getD 0 "" ∈ (["prtflo", "sys"] : List String) then
      if path_parts.length < 4 then
        .error (.partNotFound name "当前文件并非仓库中的策略文件，请手工指定仓库名")
      else .ok ((path_parts.getD (path_parts.length - 4) "") ++ "." ++ name)
    else
      if path_parts.length < 5 then
        .error (.partNotFound name "当前文件并非仓库中的策略文件，请手工指定仓库名")
      else .ok ((path_parts.getD (path_parts.length - 5) "") ++ "." ++ name)
  else .ok name

/-- `get_part(name)` (lines 389-426): validate the dotted name (second-
to-last segment must be a recognized category, else `PartNameError`);
with exactly two segments, infer the house via `infer_part_name`; look
up the Part record; import its module, converting only
`ModuleNotFoundError` into `PartNotFoundError` — any other import
exception propagates raw, as does the `AttributeError` when the loaded
module lacks `part`. Returns the name stamped onto the instance.
`loader` is `importlib.import_module` on this filesystem state. -/
def get_part (name : String) (path_parts : List String)
    (loader : String → LoadResult) :
    SessCtx → Except HError (String × SessCtx) :=
  dbsession_wrap (fun s => do
    let name_parts := py_split name '.'
    checkif (decide (name_parts.length < 2 ∨
        name_parts.getD (name_parts.length - 2) "" ∉ categories))
      (.partNameError name)
    match infer_part_name name name_parts path_parts with
    | .error e => .error e
    | .ok part_name =>
      match s.dbParts.find? (fun p => p.name = part_name) with
      | none => .error (.partNotFound part_name "仓库中不存在")
      | some part_model =>
        match loader part_model.module_name with
        | .moduleNotFound =>
          .error (.partNotFound part_name "请检查部件对应路径是否存在")
        | .loadError => .error (.uncaughtImportError part_model.module_name)
        | .ok m =>
          if m.hasPart = false then
            .error (.uncaughtImportError part_model.module_name)
          else .ok (part_model.name, s))

/-- `get_part_info(name)` (lines 428-441): look up the Part record by
name and return the stored `name`, `author`, `version`, `doc`. -/
def get_part_info (name : String) :
    SessCtx → Except HError ((String × String × String × String) × SessCtx) :=
  dbsession_wrap (fun s =>
    match s.dbParts.find? (fun p => p.name = name) with
    | none => .error (.partNotFound name "仓库中不存在")
    | some part_model =>
      .ok ((name, part_model.author, part_model.version, part_model.doc), s))

/-- `get_house_name_list()` (lines 467-470). -/
def get_house_name_list : SessCtx → Except HError (List String × SessCtx) :=
  dbsession_wrap (fun s => .ok (s.dbHouses.map (fun h => h.name), s))

/-- `get_part_name_list(house, part_type)` (lines 472-489). -/
def get_part_name_list (house part_type : Option String) :
    SessCtx → Except HError (List String × SessCtx) :=
  dbsession_wrap (fun s =>
    match house, part_type with
    | none, none => .ok (s.dbParts.map (fun p => p.name), s)
    | none, some pt =>
      .ok ((s.dbParts.filter (fun p => p.part = pt)).map (fun p => p.name), s)
    | some h, none =>
      .ok ((s.dbParts.filter (fun p => p.house_name = h)).map (fun p => p.name), s)
    | some h, some pt =>
      .ok ((s.dbParts.filter
        (fun p => p.house_name = h ∧ p.part = pt)).map (fun p => p.name), s))

/-- A fresh manager state over a given committed database: no session
open, nothing pending, no commits yet. -/
def initCtx (houses : List HouseModel) (parts : List PartModel) : SessCtx :=
  { dbHouses := houses, dbParts := parts, pendingHouses := [],
    pendingParts := [], sessionOpen := false, commitCount := 0 }

/-- A candidate entry that the scanner must skip without aborting: it
passes the directory filter but its module fails to import, or the
loaded module lacks a `part` binding, or building the record raises. -/
def candidate_broken (e : DirEntry) : Prop :=
  py_startswith e.name '.' = false ∧ e.isDir = true ∧ e.name ≠ "__pycache__" ∧
    (e.load = .moduleNotFound ∨ e.load = .loadError ∨
      ∃ m, e.load = .ok m ∧ (m.hasPart = false ∨ m.buildRaises = true))

/-! ### Concrete fixtures used by witnesses and counterexamples -/

/-- A well-formed part module with no `author`/`version` attributes. -/
def goodModule : PartModule :=
  { author := none, version := none, hasPart := true, doc := none,
    buildRaises := false }

/-- A valid candidate directory entry named `foo`. -/
def goodEntry : DirEntry :=
  { name := "foo", isDir := true, load := .ok goodModule }

/-- A candidate directory entry whose module import raises a non-
`ModuleNotFoundError` exception (e.g. a syntax error). -/
def badEntry : DirEntry :=
  { name := "bad", isDir := true, load := .loadError }

/-- A house tree with one `sg` candidate (`foo`) and no other category
directories. -/
def fsOnePart : HouseFS :=
  { localExists := true,
    dirs := fun pd => if pd = "part/sg" then some [goodEntry] else none }

/-- A house tree whose `sg` directory holds one valid and one broken
candidate. -/
def fsMixed : HouseFS :=
  { localExists := true,
    dirs := fun pd => if pd = "part/sg" then some [goodEntry, badEntry] else none }

/-- A house tree that does not exist on disk. -/
def fsAbsent : HouseFS :=
  { localExists := false, dirs := fun _ => none }

/-- A registered Part row used by the resolver fixtures; it is exactly
the row that scanning `fsOnePart` for the house `fooHouse` produces. -/
def fooPartRec : PartModel :=
  { house_name := "h1", part := "sg", name := "h1.sg.foo",
    author := "None", version := "None", doc := "None",
    module_name := "h1.part.sg.foo.part" }

/-- A registered remote house whose cache directory basename is `h1`. -/
def fooHouse : HouseModel :=
  { name := "h1", house_type := "remote", local_path := "cache/h1",
    url := "u", branch := "master" }

/-- A stale Part row of house `h1` from an earlier scan. -/
def oldPartRec : PartModel :=
  { house_name := "h1", part := "sg", name := "h1.sg.old",
    author := "None", version := "None", doc := "None",
    module_name := "h1.part.sg.old.part" }

/-- A second, unrelated registered house (`h2`). -/
def barHouse : HouseModel :=
  { name := "h2", house_type := "local", local_path := "/x/h2",
    url := "", branch := "" }

/-- A Part row belonging to the unrelated house `h2`. -/
def barPartRec : PartModel :=
  { house_name := "h2", part := "mm", name := "h2.mm.bar",
    author := "None", version := "None", doc := "None",
    module_name := "h2.part.mm.bar.part" }

/-- The committed Part rows of one house. -/
def partsOf (s : SessCtx) (house : String) : List PartModel :=
  s.dbParts.filter (fun p => p.house_name = house)

/-- The committed House rows of one name. -/
def housesOf (s : SessCtx) (house : String) : List HouseModel :=
  s.dbHouses.filter (fun h => h.name = house)

/-- A part module with a padded `author` attribute, no `version`, and
a padded docstring on its `part` factory. -/
def richModule : PartModule :=
  { author := some " alice ", version := none, hasPart := true,
    doc := some " doc ", buildRaises := false }

/-- A valid candidate directory entry named `rich` loading
`richModule`. -/
def richEntry : DirEntry :=
  { name := "rich", isDir := true, load := .ok richModule }

/-- The Part row that scanning `richEntry` under `sg` of house `h1`
produces. -/
def richPartRec : PartModel :=
  { house_name := "h1", part := "sg", name := "h1.sg.rich",
    author := "alice", version := "None", doc := "doc",
    module_name := "h1.part.sg.rich.part" }

/-! ### Helper lemmas -/

/-- A broken candidate contributes no row. -/
lemma process_entry_eq_none_of_broken (hn b p : String) (e : DirEntry)
    (h : candidate_broken e) : process_entry hn b p e = none := by
  obtain ⟨h1, h2, h3, h4⟩ := h
  unfold process_entry
  rw [if_pos ⟨h1, h2, h3⟩]
  rcases h4 with h4 | h4 | ⟨m, hm, hc⟩
  · rw [h4]
  · rw [h4]
  · rw [hm]
    rcases hc with hc | hc
    · simp [hc]
    · simp [hc]

/-- Every row produced by `process_entry` carries the scanned house's
name. -/
lemma process_entry_house_name {hn b p : String} {e : DirEntry} {r : PartModel}
    (h : process_entry hn b p e = some r) : r.house_name = hn := by
  unfold process_entry at h
  split at h
  · split at h
    · exact absurd h (by simp)
    · exact absurd h (by simp)
    · split at h
      · exact absurd h (by simp)
      · split at h
        · exact absurd h (by simp)
        · injection h with h
          rw [← h]
  · exact absurd h (by simp)

/-- Every row produced by the scanner carries the scanned house's
name. -/
lemma scan_parts_house_name {house : HouseModel} {fs : HouseFS} {r : PartModel}
    (h : r ∈ scan_parts house fs) : r.house_name = house.name := by
  unfold scan_parts at h
  split at h
  · exact absurd h (by simp)
  · obtain ⟨c, _, hc⟩ := List.mem_flatMap.mp h
    unfold scan_category at hc
    split at hc
    · exact absurd hc (by simp)
    · obtain ⟨e, _, he⟩ := List.mem_filterMap.mp hc
      exact process_entry_house_name he

/-- Filtering by a predicate after filtering by its negation leaves
nothing. -/
lemma filter_pred_of_filter_not {α : Type} (l : List α) (p : α → Prop)
    [DecidablePred p] :
    (l.filter (fun a => ¬ p a)).filter (fun a => p a) = [] := by
  rw [List.filter_eq_nil_iff]
  intro a ha
  have h1 := List.of_mem_filter ha
  simp only [decide_not, Bool.not_eq_true', decide_eq_false_iff_not] at h1
  simpa using h1

/-- `get_house_name_list` returns the names of the committed House
rows (for some final session state). -/
lemma get_house_name_list_run (s : SessCtx) :
    ∃ s2 : SessCtx,
      get_house_name_list s = .ok (s.dbHouses.map (fun h => h.name), s2) := by
  cases hso : s.sessionOpen
  · exact ⟨{ commitS { s with sessionOpen := true } with sessionOpen := false },
      by simp [get_house_name_list, dbsession_wrap, hso]⟩
  · exact ⟨commitS s, by simp [get_house_name_list, dbsession_wrap, hso]⟩

/-- `get_part_name_list` with only a house filter returns the names of
the committed Part rows of that house (for some final session
state). -/
lemma get_part_name_list_house_run (s : SessCtx) (house : String) :
    ∃ s2 : SessCtx,
      get_part_name_list (some house) none s
        = .ok ((s.dbParts.filter
            (fun p => p.house_name = house)).map (fun p => p.name), s2) := by
  cases hso : s.sessionOpen
  · exact ⟨{ commitS { s with sessionOpen := true } with sessionOpen := false },
      by simp [get_part_name_list, dbsession_wrap, hso]⟩
  · exact ⟨commitS s, by simp [get_part_name_list, dbsession_wrap, hso]⟩

/-- Running `add_remote_house` on a fresh state with an unregistered
name and a successful fetch: the scanner's wrapper commits the Part
rows (commit 1), the House row is staged and committed by the outer
wrapper (commit 2), and the session is closed again. -/
lemma add_remote_house_run (houses : List HouseModel) (parts : List PartModel)
    (rcd name url branch : String) (fs : HouseFS)
    (hfind : houses.find? (fun h => h.name = name) = none) :
    add_remote_house rcd name url branch true fs (initCtx houses parts)
      = .ok ((),
        { dbHouses := houses ++
            [{ name := name, house_type := "remote",
               local_path := rcd ++ "/" ++ name, url := url, branch := branch }],
          dbParts := parts ++ scan_parts
            { name := name, house_type := "remote",
              local_path := rcd ++ "/" ++ name, url := url, branch := branch } fs,
          pendingHouses := [], pendingParts := [],
          sessionOpen := false, commitCount := 2 }) := by
  simp [add_remote_house, dbsession_wrap, initCtx, hfind, checkif,
    import_part_to_db, commitS, bind, Except.bind]

/-- A call on a state whose database already has a house of this name
fails with `HouseNameRepeatError` whatever the fetch outcome and
filesystem. -/
lemma add_remote_house_duplicate (rcd name url branch : String)
    (fOk : Bool) (fs : HouseFS) (s : SessCtx)
    (hdup : (s.dbHouses.find? (fun h => h.name = name)).isSome = true) :
    add_remote_house rcd name url branch fOk fs s
      = .error (.houseNameRepeat name) := by
  cases hso : s.sessionOpen <;>
    simp [add_remote_house, dbsession_wrap, checkif, hdup, hso,
      bind, Except.bind]

/-! ### Claim theorems -/

/-- C1: for every house-directory basename, category of the fixed
taxonomy and candidate entry, the module locator is
`"B.part.C.E.part"` for the nine `part/`-prefixed categories and
`"B.C.E.part"` for `prtflo` and `sys`, while the fully-qualified Part
name is `"<house name>.C.E"` for every category (the two branches of
the name computation are equal, so the name needs no case split). -/
theorem locator_and_name_construction (base house C E : String) :
    (C ∈ (["af", "cn", "ev", "mm", "pg", "se", "sg", "sp", "st"] : List String) →
      module_name_of base C E = base ++ ".part." ++ C ++ "." ++ E ++ ".part")
    ∧ ((C = "prtflo" ∨ C = "sys") →
      module_name_of base C E = base ++ "." ++ C ++ "." ++ E ++ ".part")
    ∧ part_name_of house C E = house ++ "." ++ C ++ "." ++ E := by
  refine ⟨?_, ?_, ?_⟩
  · intro h
    fin_cases h <;> rfl
  · rintro (rfl | rfl) <;> rfl
  · unfold part_name_of
    split <;> rfl

/-- Witness for C1 at the spec's own example: entry `foo` under `sg`
and under `sys` of basename `myhouse`. -/
theorem locator_and_name_construction_witness :
    module_name_of "myhouse" "sg" "foo" = "myhouse.part.sg.foo.part"
    ∧ module_name_of "myhouse" "sys" "foo" = "myhouse.sys.foo.part"
    ∧ part_name_of "myhouse" "sg" "foo" = "myhouse.sg.foo" := by
  have h1 := locator_and_name_construction "myhouse" "myhouse" "sg" "foo"
  have h2 := locator_and_name_construction "myhouse" "myhouse" "sys" "foo"
  exact ⟨by rw [h1.1 (by decide)]; decide, by rw [h2.2.1 (Or.inr rfl)]; decide,
    by rw [h1.2.2]; decide⟩

/-- C2: the scanner never aborts because one candidate is broken — a
broken candidate (import failure, missing `part` binding, or a raising
record construction) is skipped and the remaining candidates scan
exactly as they would without it; a missing category directory
contributes nothing; a missing house path yields zero rows. -/
theorem scan_skips_broken_candidates
    (house : HouseModel) (fs : HouseFS) (hn b p pd : String)
    (es1 es2 : List DirEntry) (e : DirEntry) (hb : candidate_broken e) :
    (fs.localExists = false → scan_parts house fs = [])
    ∧ (fs.dirs pd = none → scan_category hn b fs p pd = [])
    ∧ (es1 ++ e :: es2).filterMap (process_entry hn b p)
        = (es1 ++ es2).filterMap (process_entry hn b p) := by
  refine ⟨?_, ?_, ?_⟩
  · intro h
    simp [scan_parts, h]
  · intro h
    simp [scan_category, h]
  · rw [List.filterMap_append, List.filterMap_append,
      List.filterMap_cons_none (process_entry_eq_none_of_broken hn b p e hb)]

/-- Witness for C2: a category directory with one valid and one broken
candidate registers exactly the one row of the valid candidate. -/
theorem scan_skips_broken_candidates_witness :
    candidate_broken badEntry
    ∧ [goodEntry, badEntry].filterMap (process_entry "h1" "h1" "sg")
        = [goodEntry].filterMap (process_entry "h1" "h1" "sg")
    ∧ ([goodEntry, badEntry].filterMap (process_entry "h1" "h1" "sg")).length = 1 := by
  have hb : candidate_broken badEntry :=
    ⟨by decide, rfl, by decide, Or.inr (Or.inl rfl)⟩
  have h := scan_skips_broken_candidates
    { name := "h1", house_type := "remote", local_path := "cache/h1",
      url := "u", branch := "master" }
    fsMixed "h1" "h1" "sg" "part/sg" [goodEntry] [] badEntry hb
  have e1 : [goodEntry, badEntry] = [goodEntry] ++ [badEntry] := rfl
  exact ⟨hb, by rw [e1, h.2.2]; simp, by rw [e1, h.2.2]; decide⟩

/-- C3: after a house named `name` has been registered, a second
`add_remote_house` with the same name fails with
`HouseNameRepeatError` independently of the fetch outcome and of the
filesystem (so before any fetch, scan or insert takes effect), and the
database keeps exactly one House row of that name. -/
theorem add_remote_house_duplicate_name
    (houses : List HouseModel) (parts : List PartModel)
    (rcd name url branch : String) (fs : HouseFS) (s1 : SessCtx)
    (hfresh : houses.filter (fun h => h.name = name) = [])
    (hrun : add_remote_house rcd name url branch true fs (initCtx houses parts)
      = .ok ((), s1)) :
    (∀ (rcd2 url2 branch2 : String) (fOk2 : Bool) (fs2 : HouseFS),
      add_remote_house rcd2 name url2 branch2 fOk2 fs2 s1
        = .error (.houseNameRepeat name))
    ∧ (s1.dbHouses.filter (fun h => h.name = name)).length = 1 := by
  have hfind : houses.find? (fun h => h.name = name) = none := by
    rw [List.find?_eq_none]
    intro x hx
    have := List.filter_eq_nil_iff.mp hfresh x hx
    simpa using this
  rw [add_remote_house_run houses parts rcd name url branch fs hfind] at hrun
  have hs1 := (Prod.mk.injEq _ _ _ _).mp (Except.ok.inj hrun)
  rw [← hs1.2]
  constructor
  · intro rcd2 url2 branch2 fOk2 fs2
    apply add_remote_house_duplicate
    rw [List.find?_isSome]
    exact ⟨_, List.mem_append_right houses (List.mem_singleton.mpr rfl), by simp⟩
  · rw [List.filter_append, hfresh]
    simp

/-- Witness for C3: registering `h1` once succeeds; registering it
again fails with `HouseNameRepeatError` and one House row remains. -/
theorem add_remote_house_duplicate_name_witness :
    add_remote_house "cache2" "h1" "u2" "dev" false fsAbsent
      ⟨[⟨"h1", "remote", "cache/h1", "u", "master"⟩], [], [], [], false, 2⟩
      = .error (.houseNameRepeat "h1")
    ∧ ((⟨[⟨"h1", "remote", "cache/h1", "u", "master"⟩], [], [], [], false, 2⟩ :
        SessCtx).dbHouses.filter (fun h => h.name = "h1")).length = 1 := by
  have h := add_remote_house_duplicate_name [] [] "cache" "h1" "u" "master"
    fsAbsent ⟨[⟨"h1", "remote", "cache/h1", "u", "master"⟩], [], [], [], false, 2⟩
    rfl rfl
  exact ⟨h.1 "cache2" "u2" "dev" false fsAbsent, h.2⟩

/-- Running `update_house` on a fresh state for a registered house
whose fetch (if remote) succeeds: the house's Part rows are deleted,
the new scan's rows are committed by the nested scanner wrapper and
the outer wrapper commits again. -/
lemma update_house_run (houses : List HouseModel) (parts : List PartModel)
    (name : String) (fOk : Bool) (fs : HouseFS) (hm : HouseModel)
    (hfind : houses.find? (fun h => h.name = name) = some hm)
    (hfetch : hm.house_type = "remote" → fOk = true) :
    update_house name fOk fs (initCtx houses parts)
      = .ok ((), ⟨houses,
          parts.filter (fun p => ¬ p.house_name = name) ++ scan_parts hm fs,
          [], [], false, 2⟩) := by
  have hnf : ¬ (hm.house_type = "remote" ∧ fOk = false) := by
    rintro ⟨h1, h2⟩
    rw [hfetch h1] at h2
    cases h2
  simp [update_house, dbsession_wrap, initCtx, hfind, hnf,
    import_part_to_db, commitS]

/-- C4: `update_house` on an unregistered name fails with the
house-not-found check error and changes nothing (the error carries no
state); on a registered house it deletes all of that house's Part rows
and re-scans, so the house's Part rows afterwards are exactly the new
scan's rows, and the House rows are untouched. -/
theorem update_house_full_replacement
    (houses : List HouseModel) (parts : List PartModel)
    (name : String) (fOk : Bool) (fs : HouseFS) :
    (houses.find? (fun h => h.name = name) = none →
      update_house name fOk fs (initCtx houses parts)
        = .error (.checkFailed name))
    ∧ (∀ (hm : HouseModel) (s1 : SessCtx),
        houses.find? (fun h => h.name = name) = some hm →
        (hm.house_type = "remote" → fOk = true) →
        update_house name fOk fs (initCtx houses parts) = .ok ((), s1) →
        s1.dbParts.filter (fun p => p.house_name = name) = scan_parts hm fs
        ∧ s1.dbHouses = houses) := by
  constructor
  · intro h
    simp [update_house, dbsession_wrap, initCtx, h]
  · intro hm s1 hfind hfetch hrun
    rw [update_house_run houses parts name fOk fs hm hfind hfetch] at hrun
    have hs1 := (Prod.mk.injEq _ _ _ _).mp (Except.ok.inj hrun)
    rw [← hs1.2]
    have hname : hm.name = name := by
      have := List.find?_some hfind
      simpa using this
    constructor
    · have h2 : (scan_parts hm fs).filter (fun p => p.house_name = name)
          = scan_parts hm fs := by
        rw [List.filter_eq_self]
        intro r hr
        rw [scan_parts_house_name hr, hname]
        simp
      rw [List.filter_append,
        filter_pred_of_filter_not parts (fun p => p.house_name = name), h2]
      rfl
    · rfl

/-- Witness for C4: the house `h1` holds one stale Part row; updating
against a tree containing only the part `foo` leaves exactly the one
freshly scanned row. -/
theorem update_house_full_replacement_witness :
    (⟨[fooHouse], [fooPartRec], [], [], false, 2⟩ :
        SessCtx).dbParts.filter (fun p => p.house_name = "h1")
      = scan_parts fooHouse fsOnePart
    ∧ (⟨[fooHouse], [fooPartRec], [], [], false, 2⟩ : SessCtx).dbHouses
      = [fooHouse]
    ∧ scan_parts fooHouse fsOnePart = [fooPartRec]
    ∧ update_house "missing" true fsOnePart (initCtx [fooHouse] [oldPartRec])
      = .error (.checkFailed "missing") := by
  have h := update_house_full_replacement [fooHouse] [oldPartRec] "h1"
    true fsOnePart
  have h2 := h.2 fooHouse ⟨[fooHouse], [fooPartRec], [], [], false, 2⟩
    rfl (fun _ => rfl) rfl
  have h3 := update_house_full_replacement [fooHouse] [oldPartRec] "missing"
    true fsOnePart
  exact ⟨h2.1, h2.2, by decide, h3.1 rfl⟩

/-- Running `remove_house` on a fresh state: both bulk deletes run in
the database transaction and the wrapper commits once. -/
lemma remove_house_run (houses : List HouseModel) (parts : List PartModel)
    (name : String) :
    remove_house name (initCtx houses parts)
      = .ok ((), ⟨houses.filter (fun h => ¬ h.name = name),
          parts.filter (fun p => ¬ p.house_name = name), [], [], false, 1⟩) := by
  simp [remove_house, dbsession_wrap, initCtx, commitS]

/-- C5: `remove_house` succeeds for every name (registered or not),
deleting the house's Part rows and House row: afterwards the house
name list does not contain the name and the part name list filtered to
that house is empty; when no such house or parts exist the database is
unchanged. -/
theorem remove_house_deletes_house_and_parts
    (houses : List HouseModel) (parts : List PartModel) (name : String) :
    remove_house name (initCtx houses parts)
      = .ok ((), ⟨houses.filter (fun h => ¬ h.name = name),
          parts.filter (fun p => ¬ p.house_name = name), [], [], false, 1⟩)
    ∧ (∀ s1 : SessCtx,
        remove_house name (initCtx houses parts) = .ok ((), s1) →
        (∀ (ns : List String) (s2 : SessCtx),
          get_house_name_list s1 = .ok (ns, s2) → name ∉ ns)
        ∧ (∀ (ps : List String) (s2 : SessCtx),
          get_part_name_list (some name) none s1 = .ok (ps, s2) → ps = []))
    ∧ ((houses.filter (fun h => h.name = name) = [] ∧
        parts.filter (fun p => p.house_name = name) = []) →
        remove_house name (initCtx houses parts)
          = .ok ((), ⟨houses, parts, [], [], false, 1⟩)) := by
  refine ⟨remove_house_run houses parts name, ?_, ?_⟩
  · intro s1 hrun
    rw [remove_house_run houses parts name] at hrun
    have hs1 := (Prod.mk.injEq _ _ _ _).mp (Except.ok.inj hrun)
    rw [← hs1.2]
    constructor
    · intro ns s2 hlist
      obtain ⟨s2a, hruns⟩ := get_house_name_list_run
        ⟨houses.filter (fun h => ¬ h.name = name),
         parts.filter (fun p => ¬ p.house_name = name), [], [], false, 1⟩
      rw [hruns] at hlist
      have hns := ((Prod.mk.injEq _ _ _ _).mp (Except.ok.inj hlist)).1
      rw [← hns]
      intro hmem
      obtain ⟨g, hg, hgname⟩ := List.mem_map.mp hmem
      have := List.of_mem_filter hg
      simp only [decide_not, Bool.not_eq_true', decide_eq_false_iff_not] at this
      exact this hgname
    · intro ps s2 hlist
      obtain ⟨s2a, hruns⟩ := get_part_name_list_house_run
        ⟨houses.filter (fun h => ¬ h.name = name),
         parts.filter (fun p => ¬ p.house_name = name), [], [], false, 1⟩ name
      rw [hruns] at hlist
      have hps := ((Prod.mk.injEq _ _ _ _).mp (Except.ok.inj hlist)).1
      rw [← hps]
      have := filter_pred_of_filter_not parts (fun p => p.house_name = name)
      rw [show (⟨houses.filter (fun h => ¬ h.name = name),
         parts.filter (fun p => ¬ p.house_name = name), [], [], false, 1⟩ :
          SessCtx).dbParts
        = parts.filter (fun p => ¬ p.house_name = name) from rfl, this]
      rfl
  · rintro ⟨hh, hp⟩
    have e1 : houses.filter (fun h => ¬ h.name = name) = houses := by
      rw [List.filter_eq_self]
      intro a ha
      have := List.filter_eq_nil_iff.mp hh a ha
      simpa using this
    have e2 : parts.filter (fun p => ¬ p.house_name = name) = parts := by
      rw [List.filter_eq_self]
      intro a ha
      have := List.filter_eq_nil_iff.mp hp a ha
      simpa using this
    rw [remove_house_run houses parts name, e1, e2]

/-- Witness for C5: removing `h1` from a store holding its house row
and one part row, then removing the now-absent `h1` again as a no-op. -/
theorem remove_house_deletes_house_and_parts_witness :
    remove_house "h1" (initCtx [fooHouse] [fooPartRec])
      = .ok ((), ⟨[], [], [], [], false, 1⟩)
    ∧ remove_house "h1" (initCtx [] [])
      = .ok ((), ⟨[], [], [], [], false, 1⟩) := by
  have h1 := remove_house_deletes_house_and_parts [fooHouse] [fooPartRec] "h1"
  have h2 := remove_house_deletes_house_and_parts [] [] "h1"
  exact ⟨by rw [h1.1]; rfl, h2.2.2 ⟨rfl, rfl⟩⟩

/-- C6: `get_part` fails with `PartNameError` exactly when the dotted
name, split on `.`, has fewer than two segments or a second-to-last
segment outside the eleven recognized categories; no later failure
(record missing, module load failure) ever surfaces as
`PartNameError`. -/
theorem get_part_name_validation
    (name : String) (path_parts : List String)
    (loader : String → LoadResult) (s : SessCtx) :
    get_part name path_parts loader s = .error (.partNameError name)
    ↔ ((py_split name '.').length < 2 ∨
        (py_split name '.').getD ((py_split name '.').length - 2) ""
          ∉ categories) := by
  by_cases hc : (py_split name '.').length < 2 ∨
      (py_split name '.').getD ((py_split name '.').length - 2) "" ∉ categories
  · refine iff_of_true ?_ hc
    rw [List.getD_eq_getElem?_getD] at hc
    cases hso : s.sessionOpen <;>
      simp [get_part, dbsession_wrap, checkif, hso, bind, Except.bind, hc]
  · refine iff_of_false ?_ hc
    have hcb : decide ((py_split name '.').length < 2 ∨
        (py_split name '.').getD ((py_split name '.').length - 2) ""
          ∉ categories) = false := decide_eq_false hc
    intro h
    unfold get_part dbsession_wrap at h
    simp only [bind, Except.bind, checkif, hcb, Bool.false_eq_true,
      if_false, reduceIte] at h
    revert h
    split
    · next e heq =>
      intro h
      injection h with he
      subst he
      rcases hinf : infer_part_name name (py_split name '.') path_parts with
        e2 | pn
      · have : ∃ c, e2 = HError.partNotFound name c := by
          revert hinf
          unfold infer_part_name
          split
          · split
            · split
              · intro hh
                injection hh with hh
                exact ⟨_, hh.symm⟩
              · intro hh
                cases hh
            · split
              · intro hh
                injection hh with hh
                exact ⟨_, hh.symm⟩
              · intro hh
                cases hh
          · intro hh
            cases hh
        obtain ⟨c, rfl⟩ := this
        rw [hinf] at heq
        simp at heq
      · rw [hinf] at heq
        rcases hfind : List.find? (fun p => decide (p.name = pn))
            (if s.sessionOpen = true then s
             else { s with sessionOpen := true }).dbParts with _ | pm
        · simp [hfind] at heq
        · rcases hload : loader pm.module_name with m | _ | _
          · by_cases hp : m.hasPart = false <;> simp [hfind, hload, hp] at heq
          · simp [hfind, hload] at heq
          · simp [hfind, hload] at heq
    · next v heq =>
      intro h
      exact absurd h (by simp)

/-- Witness for C6: a well-formed three-segment name with category
`sg` never yields `PartNameError`; a dotless name does. -/
theorem get_part_name_validation_witness :
    get_part "h1.sg.foo" [] (fun _ => .moduleNotFound) (initCtx [] [fooPartRec])
      ≠ .error (.partNameError "h1.sg.foo")
    ∧ get_part "badname" [] (fun _ => .moduleNotFound) (initCtx [] [])
      = .error (.partNameError "badname") := by
  have h1 := get_part_name_validation "h1.sg.foo" []
    (fun _ => .moduleNotFound) (initCtx [] [fooPartRec])
  have h2 := get_part_name_validation "badname" []
    (fun _ => .moduleNotFound) (initCtx [] [])
  refine ⟨fun hx => ?_, h2.mpr (by decide)⟩
  exact absurd (h1.mp hx) (by decide)

/-- C7 is false as stated: `get_part` catches only
`ModuleNotFoundError`. On a registered record whose module import
raises any other exception (here: the modelled non-`ModuleNotFound`
load failure), the call does not fail with `PartNotFoundError` — the
original exception propagates raw. -/
theorem get_part_other_load_failure_cex :
    get_part "h1.sg.foo" [] (fun _ => .loadError) (initCtx [] [fooPartRec])
      = .error (.uncaughtImportError "h1.part.sg.foo.part")
    ∧ get_part "h1.sg.foo" [] (fun _ => .loadError) (initCtx [] [fooPartRec])
      ≠ .error (.partNotFound "h1.sg.foo" "请检查部件对应路径是否存在") := by
  have h : get_part "h1.sg.foo" [] (fun _ => .loadError)
      (initCtx [] [fooPartRec])
      = .error (.uncaughtImportError "h1.part.sg.foo.part") := rfl
  refine ⟨h, ?_⟩
  rw [h]
  simp

/-- C7 (amended): when the fully-qualified name has a registered Part
record, a `ModuleNotFoundError` while loading the record's module
locator becomes `PartNotFoundError` ("check the path"); any other
load failure is not caught and propagates as the original exception. -/
theorem get_part_load_failure_amended
    (st : SessCtx) (name : String) (path_parts : List String)
    (loader : String → LoadResult) (r : PartModel)
    (hlen : (py_split name '.').length ≠ 2)
    (hvalid : ¬ ((py_split name '.').length < 2 ∨
        (py_split name '.').getD ((py_split name '.').length - 2) ""
          ∉ categories))
    (hfind : st.dbParts.find? (fun p => p.name = name) = some r) :
    (loader r.module_name = .moduleNotFound →
      get_part name path_parts loader st
        = .error (.partNotFound name "请检查部件对应路径是否存在"))
    ∧ (loader r.module_name = .loadError →
      get_part name path_parts loader st
        = .error (.uncaughtImportError r.module_name)) := by
  have hinf : infer_part_name name (py_split name '.') path_parts
      = .ok name := by
    unfold infer_part_name
    rw [if_neg hlen]
  have hv2 : ¬ ((py_split name '.').length < 2 ∨
      (py_split name '.')[(py_split name '.').length - 2]?.getD ""
        ∉ categories) := by
    rw [← List.getD_eq_getElem?_getD]
    exact hvalid
  constructor <;> intro hl <;> cases hso : st.sessionOpen <;>
    simp [get_part, dbsession_wrap, checkif, hv2, hinf, hfind, hl, hso,
      bind, Except.bind]

/-- Witness for the amended C7: on the registered record `h1.sg.foo`,
a missing module yields `PartNotFoundError` and a non-missing-module
load failure propagates raw. -/
theorem get_part_load_failure_amended_witness :
    get_part "h1.sg.foo" [] (fun _ => .moduleNotFound) (initCtx [] [fooPartRec])
      = .error (.partNotFound "h1.sg.foo" "请检查部件对应路径是否存在")
    ∧ get_part "h1.sg.foo" [] (fun _ => .loadError) (initCtx [] [fooPartRec])
      = .error (.uncaughtImportError "h1.part.sg.foo.part") := by
  have h1 := get_part_load_failure_amended (initCtx [] [fooPartRec])
    "h1.sg.foo" [] (fun _ => .moduleNotFound) fooPartRec
    (by decide) (by decide) (by decide)
  have h2 := get_part_load_failure_amended (initCtx [] [fooPartRec])
    "h1.sg.foo" [] (fun _ => .loadError) fooPartRec
    (by decide) (by decide) (by decide)
  exact ⟨h1.1 rfl, h2.2 rfl⟩

/-- C8 is false as stated: the `dbsession` wrapper calls
`session.commit()` unconditionally, so the nested decorated scanner
commits on its own. On an already-open session, `import_part_to_db`
commits the Part rows (House row still absent, commit count up by
one), and a whole `add_remote_house` commits twice, not exactly
once. -/
theorem dbsession_nested_commit_cex :
    import_part_to_db fooHouse fsOnePart ⟨[], [], [], [], true, 0⟩
      = .ok ((), ⟨[], [fooPartRec], [], [], true, 1⟩)
    ∧ (add_remote_house "cache" "h1" "u" "master" true fsOnePart
        (initCtx [] [])).map (fun r => r.2.commitCount) = .ok 2
    ∧ ¬ (add_remote_house "cache" "h1" "u" "master" true fsOnePart
        (initCtx [] [])).map (fun r => r.2.commitCount) = .ok 1 := by
  have h2 : (add_remote_house "cache" "h1" "u" "master" true fsOnePart
      (initCtx [] [])).map (fun r => r.2.commitCount) = .ok 2 := rfl
  refine ⟨rfl, h2, ?_⟩
  rw [h2]
  simp

/-- C8 (amended): every decorated call commits the shared session once
when its body succeeds. A nested decorated call (session already open)
shares the caller's session and does not close it, but does commit; a
top-level `add_remote_house` therefore commits twice — the nested
scanner's wrapper commits the Part inserts before the House row is
staged, the outer wrapper commits the House row — and only the
top-level call opens and closes the session. -/
theorem dbsession_commit_per_call
    {α : Type} (body : SessCtx → Except HError (α × SessCtx))
    (s : SessCtx) (a : α) (s2 : SessCtx)
    (houses : List HouseModel) (parts : List PartModel)
    (rcd name url branch : String) (fs : HouseFS)
    (hopen : s.sessionOpen = true)
    (hbody : body s = .ok (a, s2))
    (hfresh : houses.find? (fun h => h.name = name) = none) :
    dbsession_wrap body s = .ok (a, commitS s2)
    ∧ (commitS s2).sessionOpen = s2.sessionOpen
    ∧ (commitS s2).commitCount = s2.commitCount + 1
    ∧ (∀ s1 : SessCtx,
        add_remote_house rcd name url branch true fs (initCtx houses parts)
          = .ok ((), s1) →
        s1.commitCount = 2 ∧ s1.sessionOpen = false) := by
  refine ⟨?_, rfl, rfl, ?_⟩
  · simp [dbsession_wrap, hopen, hbody]
  · intro s1 hrun
    rw [add_remote_house_run houses parts rcd name url branch fs hfresh]
      at hrun
    have hs1 := (Prod.mk.injEq _ _ _ _).mp (Except.ok.inj hrun)
    rw [← hs1.2]
    exact ⟨rfl, rfl⟩

/-- Witness for the amended C8: a nested call on an open session
commits once without closing; a concrete top-level house-add ends with
two commits and a closed session. -/
theorem dbsession_commit_per_call_witness :
    dbsession_wrap (fun s => .ok ((), s)) ⟨[], [], [], [], true, 0⟩
      = .ok ((), ⟨[], [], [], [], true, 1⟩)
    ∧ (⟨[fooHouse], [fooPartRec], [], [], false, 2⟩ : SessCtx).commitCount = 2
    ∧ (⟨[fooHouse], [fooPartRec], [], [], false, 2⟩ : SessCtx).sessionOpen
      = false := by
  have h := dbsession_commit_per_call (fun s => .ok ((), s))
    ⟨[], [], [], [], true, 0⟩ () ⟨[], [], [], [], true, 0⟩
    [] [] "cache" "h1" "u" "master" fsOnePart rfl rfl rfl
  have h4 := h.2.2.2 ⟨[fooHouse], [fooPartRec], [], [], false, 2⟩ rfl
  exact ⟨h.1, h4.1, h4.2⟩

/-- C9: the row registered for a successfully scanned candidate
carries `author`/`version` equal to the module attributes stripped
when present and the literal `"None"` when absent, and `doc` equal to
the `part` factory's docstring stripped, `"None"` when empty or
absent; and `get_part_info` returns exactly the stored values. -/
theorem part_metadata_defaults
    (hn b p : String) (e : DirEntry) (m : PartModule) (r : PartModel)
    (st : SessCtx)
    (hload : e.load = .ok m)
    (hr : process_entry hn b p e = some r)
    (hfind : st.dbParts.find? (fun q => q.name = r.name) = some r) :
    r.author = (match m.author with
      | some a => py_strip a
      | none => "None")
    ∧ r.version = (match m.version with
      | some v => py_strip v
      | none => "None")
    ∧ r.doc = (match m.doc with
      | some d => if d ≠ "" then py_strip d else "None"
      | none => "None")
    ∧ (get_part_info r.name st).map (fun x => x.1)
      = .ok (r.name, r.author, r.version, r.doc) := by
  have hinfo : (get_part_info r.name st).map (fun x => x.1)
      = .ok (r.name, r.author, r.version, r.doc) := by
    cases hso : st.sessionOpen <;>
      simp [get_part_info, dbsession_wrap, hfind, hso, Except.map]
  unfold process_entry at hr
  rw [hload] at hr
  split at hr
  · by_cases h1 : m.hasPart = false
    · simp [h1] at hr
    · by_cases h2 : m.buildRaises = true
      · simp [h1, h2] at hr
      · simp only [h1, h2, Bool.false_eq_true, Bool.true_eq_false,
          Bool.not_eq_false, Bool.not_eq_true, if_false, reduceIte,
          Option.some.injEq] at hr
        rw [← hr]
        exact ⟨rfl, rfl, rfl, by rw [hr]; exact hinfo⟩
  · exact absurd hr (by simp)

/-- Witness for C9: a module with `author = " alice "`, no `version`
and docstring `" doc "` registers author `"alice"`, version `"None"`,
doc `"doc"`, and `get_part_info` reports them. -/
theorem part_metadata_defaults_witness :
    richPartRec.author = "alice"
    ∧ richPartRec.version = "None"
    ∧ richPartRec.doc = "doc"
    ∧ (get_part_info "h1.sg.rich" (initCtx [] [richPartRec])).map
        (fun x => x.1)
      = .ok ("h1.sg.rich", "alice", "None", "doc") := by
  have h := part_metadata_defaults "h1" "h1" "sg" richEntry richModule
    richPartRec (initCtx [] [richPartRec]) rfl (by decide) (by decide)
  exact ⟨by rw [h.1]; decide, by rw [h.2.1]; decide, by rw [h.2.2.1]; decide,
    h.2.2.2⟩

/-- Filtering a list for key `other` is unaffected by first deleting
the entries with key `name ≠ other`. -/
lemma filter_other_of_filter_not_name {α : Type} (l : List α) (f : α → String)
    (name other : String) (hne : other ≠ name) :
    (l.filter (fun a => ¬ f a = name)).filter (fun a => f a = other)
      = l.filter (fun a => f a = other) := by
  rw [List.filter_comm, List.filter_eq_self]
  intro a ha
  have h1 := List.of_mem_filter ha
  simp only [decide_eq_true_eq] at h1
  simp only [decide_not, Bool.not_eq_true', decide_eq_false_iff_not]
  rw [h1]
  exact hne

/-- A single House row of a different name contributes nothing when
filtering for `other`. -/
lemma filter_singleton_other (g : HouseModel) (other : String)
    (hne : ¬ g.name = other) :
    [g].filter (fun h => h.name = other) = [] := by
  simp [hne]

/-- The scanner's rows for a house named `name` contribute nothing to
another house's rows. -/
lemma filter_scan_other (house : HouseModel) (fs : HouseFS) (other : String)
    (hne : other ≠ house.name) :
    (scan_parts house fs).filter (fun p => p.house_name = other) = [] := by
  rw [List.filter_eq_nil_iff]
  intro r hr
  rw [scan_parts_house_name hr]
  simp only [decide_eq_true_eq]
  exact fun hh => hne hh.symm

/-- C10: registering, updating or removing the house `name` leaves the
Part rows and the House rows of every other house unchanged. -/
theorem other_house_frame
    (houses : List HouseModel) (parts : List PartModel)
    (name other : String) (hne : other ≠ name) :
    (∀ (rcd url branch : String) (fOk : Bool) (fs : HouseFS) (s1 : SessCtx),
      add_remote_house rcd name url branch fOk fs (initCtx houses parts)
        = .ok ((), s1) →
      partsOf s1 other = partsOf (initCtx houses parts) other
      ∧ housesOf s1 other = housesOf (initCtx houses parts) other)
    ∧ (∀ (fOk : Bool) (fs : HouseFS) (s1 : SessCtx),
      update_house name fOk fs (initCtx houses parts) = .ok ((), s1) →
      partsOf s1 other = partsOf (initCtx houses parts) other
      ∧ housesOf s1 other = housesOf (initCtx houses parts) other)
    ∧ (∀ s1 : SessCtx,
      remove_house name (initCtx houses parts) = .ok ((), s1) →
      partsOf s1 other = partsOf (initCtx houses parts) other
      ∧ housesOf s1 other = housesOf (initCtx houses parts) other) := by
  refine ⟨?_, ?_, ?_⟩
  · intro rcd url branch fOk fs s1 hrun
    rcases hfind : houses.find? (fun h => h.name = name) with _ | hm
    · cases hfok : fOk
      · rw [hfok] at hrun
        simp [add_remote_house, dbsession_wrap, initCtx, hfind, checkif,
          bind, Except.bind] at hrun
      · rw [hfok] at hrun
        rw [add_remote_house_run houses parts rcd name url branch fs hfind]
          at hrun
        have hs1 := (Prod.mk.injEq _ _ _ _).mp (Except.ok.inj hrun)
        rw [← hs1.2]
        constructor
        · show (parts ++ scan_parts _ fs).filter _ = _
          rw [List.filter_append, filter_scan_other _ fs other hne,
            List.append_nil]
          rfl
        · show (houses ++ [_]).filter _ = _
          rw [List.filter_append,
            filter_singleton_other _ other (fun hh => hne hh.symm),
            List.append_nil]
          rfl
    · have := add_remote_house_duplicate rcd name url branch fOk fs
        (initCtx houses parts) (by rw [show (initCtx houses parts).dbHouses
          = houses from rfl, hfind]; rfl)
      rw [this] at hrun
      cases hrun
  · intro fOk fs s1 hrun
    rcases hfind : houses.find? (fun h => h.name = name) with _ | hm
    · simp [update_house, dbsession_wrap, initCtx, hfind] at hrun
    · by_cases hrem : hm.house_type = "remote" ∧ fOk = false
      · simp [update_house, dbsession_wrap, initCtx, hfind, hrem,
          import_part_to_db, commitS] at hrun
      · have hfetch : hm.house_type = "remote" → fOk = true := by
          intro hr
          cases hf : fOk
          · exact absurd ⟨hr, hf⟩ hrem
          · rfl
        rw [update_house_run houses parts name fOk fs hm hfind hfetch]
          at hrun
        have hs1 := (Prod.mk.injEq _ _ _ _).mp (Except.ok.inj hrun)
        rw [← hs1.2]
        constructor
        · show ((parts.filter _) ++ scan_parts hm fs).filter _ = _
          have hmn : hm.name = name := by
            have := List.find?_some hfind
            simpa using this
          rw [List.filter_append, filter_scan_other hm fs other
            (by rw [hmn]; exact hne), List.append_nil,
            filter_other_of_filter_not_name parts
              (fun p => p.house_name) name other hne]
          rfl
        · rfl
  · intro s1 hrun
    rw [remove_house_run houses parts name] at hrun
    have hs1 := (Prod.mk.injEq _ _ _ _).mp (Except.ok.inj hrun)
    rw [← hs1.2]
    constructor
    · show (parts.filter _).filter _ = _
      rw [filter_other_of_filter_not_name parts
        (fun p => p.house_name) name other hne]
      rfl
    · show (houses.filter _).filter _ = _
      rw [filter_other_of_filter_not_name houses
        (fun h => h.name) name other hne]
      rfl

/-- Witness for C10: adding house `h1` and removing house `h1` both
leave the rows of house `h2` untouched. -/
theorem other_house_frame_witness :
    partsOf (⟨[barHouse, fooHouse], [barPartRec, fooPartRec], [], [],
        false, 2⟩ : SessCtx) "h2"
      = partsOf (initCtx [barHouse] [barPartRec]) "h2"
    ∧ housesOf (⟨[barHouse, fooHouse], [barPartRec, fooPartRec], [], [],
        false, 2⟩ : SessCtx) "h2"
      = housesOf (initCtx [barHouse] [barPartRec]) "h2"
    ∧ partsOf (⟨[barHouse], [barPartRec], [], [], false, 1⟩ : SessCtx) "h2"
      = partsOf (initCtx [barHouse] [barPartRec]) "h2" := by
  have h := other_house_frame [barHouse] [barPartRec] "h1" "h2" (by decide)
  have ha := h.1 "cache" "u" "master" true fsOnePart
    ⟨[barHouse, fooHouse], [barPartRec, fooPartRec], [], [], false, 2⟩ rfl
  have hr := h.2.2 ⟨[barHouse], [barPartRec], [], [], false, 1⟩ rfl
  exact ⟨ha.1, ha.2, hr.1⟩

end House
